import Mathlib

/-!
Verification of the Myth AI 2.2 chat backend (`src/app.py`) against its
natural-language specification.

The Python source is embedded shallowly:
* a row of the `users` table (and the `User` model class) becomes the
  structure `User`;
* `PLAN_CONFIG` becomes a literal association list;
* `check_and_reset_daily_limit`, `get_user_data_for_frontend` and
  `upgrade_user` become pure functions, with `datetime.now().strftime`
  passed in as an explicit `today : String` and the SQLite `users` table
  as a `List User`;
* the chat-turn pipeline (quota reservation, model selection, session
  registry, stream relay, persistence) is referenced by the source file
  ("the rest of the backend routes are the same as the previous version")
  but its code is not present; those parts are modelled from the spec and
  are marked `Modelled from the spec:` in their doc comments.
-/

/-- A row of the `users` table / the fields of the Python `User` model
(`id, username, password_hash, role, plan, daily_messages, last_message_date`). -/
structure User where
  id : String
  username : String
  password_hash : String
  role : String
  plan : String
  daily_messages : Nat
  last_message_date : String
deriving Repr, DecidableEq

/-- The value part of one `PLAN_CONFIG` entry: `{"message_limit": ..., "models": [...]}`. -/
structure PlanDetails where
  message_limit : Nat
  models : List String
deriving Repr, DecidableEq

/-- `PLAN_CONFIG["free"]`. -/
def planFree : PlanDetails := ⟨15, ["gemini-1.5-flash-latest"]⟩

/-- `PLAN_CONFIG["pro"]`. -/
def planPro : PlanDetails := ⟨50, ["gemini-1.5-flash-latest", "gemini-pro"]⟩

/-- The Python dict `PLAN_CONFIG` (app.py lines 509-512), as an association list. -/
def PLAN_CONFIG : List (String × PlanDetails) := [("free", planFree), ("pro", planPro)]

/-- Python `PLAN_CONFIG.get(plan)` without a default: dictionary lookup. -/
def planConfigFind (plan : String) : Option PlanDetails :=
  (PLAN_CONFIG.find? (fun p => p.1 == plan)).map Prod.snd

/-- Python `PLAN_CONFIG.get(plan, PLAN_CONFIG['free'])` as used in
`get_user_data_for_frontend` (app.py line 527): lookup with fallback to the
free plan's configuration. -/
def planConfigGetD (plan : String) : PlanDetails :=
  (planConfigFind plan).getD planFree

/-- `check_and_reset_daily_limit(user)` (app.py lines 514-522), with
`datetime.now().strftime("%Y-%m-%d")` passed in as `today`.  Returns the
updated user together with a flag recording whether a database `UPDATE`
was executed. -/
def check_and_reset_daily_limit (today : String) (user : User) : User × Bool :=
  if user.last_message_date ≠ today then
    ({ user with last_message_date := today, daily_messages := 0 }, true)
  else
    (user, false)

/-- The JSON object built by `get_user_data_for_frontend` (app.py lines 524-531). -/
structure FrontendUserData where
  id : String
  username : String
  role : String
  plan : String
  daily_messages : Nat
  message_limit : Nat
deriving Repr, DecidableEq

/-- `get_user_data_for_frontend(user)` (app.py lines 524-531) for a non-null
user: runs the lazy daily reset, then resolves the plan with the free-plan
fallback and builds the frontend payload. -/
def get_user_data_for_frontend (today : String) (user : User) : FrontendUserData :=
  let u := (check_and_reset_daily_limit today user).1
  let plan_details := planConfigGetD u.plan
  ⟨u.id, u.username, u.role, u.plan, u.daily_messages, plan_details.message_limit⟩

/-- The `/api/user/upgrade` route body (app.py lines 552-559):
`UPDATE users SET plan = 'pro' WHERE id = ?` applied to the `users` table,
with `current_user.id` passed as `uid`. -/
def upgrade_user (users : List User) (uid : String) : List User :=
  users.map (fun u => if u.id = uid then { u with plan := "pro" } else u)

/-- Claim C10: `check_and_reset_daily_limit` is idempotent for a fixed current
date: after one call the stored date equals `today`, so a second call performs
no database write and returns the state unchanged; two calls in one day yield
the same user state as one. -/
theorem check_and_reset_idempotent (today : String) (u : User) :
    (check_and_reset_daily_limit today u).1.last_message_date = today
    ∧ check_and_reset_daily_limit today (check_and_reset_daily_limit today u).1
        = ((check_and_reset_daily_limit today u).1, false)
    ∧ (check_and_reset_daily_limit today (check_and_reset_daily_limit today u).1).1
        = (check_and_reset_daily_limit today u).1 := by
  unfold check_and_reset_daily_limit
  by_cases h : u.last_message_date = today <;> simp [h]

/-- Claim C9: the upgrade route sets the authenticated user's plan to `"pro"`
unconditionally, leaves every other field of that row unchanged, and leaves
every other user's row unchanged (and the table keeps its length). -/
theorem upgrade_user_frame (users : List User) (uid : String) (i : Nat) (u : User)
    (h : users[i]? = some u) :
    (upgrade_user users uid).length = users.length
    ∧ ∃ u', (upgrade_user users uid)[i]? = some u'
        ∧ (u.id = uid → u'.plan = "pro")
        ∧ (u.id ≠ uid → u' = u)
        ∧ u'.id = u.id ∧ u'.username = u.username
        ∧ u'.password_hash = u.password_hash ∧ u'.role = u.role
        ∧ u'.daily_messages = u.daily_messages
        ∧ u'.last_message_date = u.last_message_date := by
  refine ⟨by simp [upgrade_user], ?_⟩
  refine ⟨if u.id = uid then { u with plan := "pro" } else u, ?_, ?_, ?_, ?_⟩
  · simp [upgrade_user, List.getElem?_map, h]
  · intro hid; simp [hid]
  · intro hid; simp [hid]
  · by_cases hid : u.id = uid <;> simp [hid]

/-- A two-row users table used as a concrete witness input. -/
def usersDemo : List User :=
  [⟨"u1", "alice", "h1", "user", "free", 3, "2026-10-12"⟩,
   ⟨"u2", "bob", "h2", "user", "free", 7, "2026-10-12"⟩]

theorem upgrade_user_frame_witness :
    (upgrade_user usersDemo "u1").length = usersDemo.length
    ∧ ∃ u', (upgrade_user usersDemo "u1")[0]? = some u'
        ∧ ((usersDemo.get ⟨0, by decide⟩).id = "u1" → u'.plan = "pro")
        ∧ ((usersDemo.get ⟨0, by decide⟩).id ≠ "u1" → u' = usersDemo.get ⟨0, by decide⟩)
        ∧ u'.id = (usersDemo.get ⟨0, by decide⟩).id
        ∧ u'.username = (usersDemo.get ⟨0, by decide⟩).username
        ∧ u'.password_hash = (usersDemo.get ⟨0, by decide⟩).password_hash
        ∧ u'.role = (usersDemo.get ⟨0, by decide⟩).role
        ∧ u'.daily_messages = (usersDemo.get ⟨0, by decide⟩).daily_messages
        ∧ u'.last_message_date = (usersDemo.get ⟨0, by decide⟩).last_message_date :=
  upgrade_user_frame usersDemo "u1" 0 (usersDemo.get ⟨0, by decide⟩) (by decide)

/-- Claim C6, counterexample to the claim as stated: the code has no
`UnknownPlan` failure path.  For the unknown plan identifier `"enterprise"`,
the dictionary lookup used by the source (`PLAN_CONFIG.get(plan,
PLAN_CONFIG['free'])`) returns the free plan's configuration, and
`get_user_data_for_frontend` reports the free plan's message limit. -/
theorem unknown_plan_counterexample :
    planConfigFind "enterprise" = none
    ∧ planConfigGetD "enterprise" = planFree
    ∧ (get_user_data_for_frontend "2026-10-12"
        ⟨"u9", "carol", "h9", "user", "enterprise", 4, "2026-10-12"⟩).message_limit = 15 := by
  decide

/-- Claim C6, amended: for every plan identifier other than `"free"` and
`"pro"`, the dictionary lookup finds no entry and the code falls back to the
free plan's configuration (no error is raised); hence `get_user_data_for_frontend`
reports the free plan's limit of 15 for such a user. -/
theorem unknown_plan_falls_back_to_free (p : String) (hf : p ≠ "free") (hp : p ≠ "pro") :
    planConfigFind p = none
    ∧ planConfigGetD p = planFree
    ∧ ∀ (today : String) (u : User), u.plan = p →
        (get_user_data_for_frontend today u).message_limit = 15 := by
  have h1 : (("free" : String) == p) = false :=
    beq_eq_false_iff_ne.mpr (fun h => hf h.symm)
  have h2 : (("pro" : String) == p) = false :=
    beq_eq_false_iff_ne.mpr (fun h => hp h.symm)
  have hfind : planConfigFind p = none := by
    simp [planConfigFind, PLAN_CONFIG, List.find?, h1, h2]
  refine ⟨hfind, by simp [planConfigGetD, hfind], ?_⟩
  intro today u hu
  unfold get_user_data_for_frontend check_and_reset_daily_limit
  by_cases hd : u.last_message_date = today <;>
    simp [hd, planConfigGetD, hu, hfind, planFree]

theorem unknown_plan_falls_back_witness :
    planConfigFind "enterprise2" = none
    ∧ planConfigGetD "enterprise2" = planFree
    ∧ ∀ (today : String) (u : User), u.plan = "enterprise2" →
        (get_user_data_for_frontend today u).message_limit = 15 :=
  unknown_plan_falls_back_to_free "enterprise2" (by decide) (by decide)

/-- Result of a quota reservation (§4.1 of the spec). -/
inductive ReserveResult where
  | Allowed
  | Denied (reason : String)
deriving Repr, DecidableEq

/-- Modelled from the spec: `QuotaLedger.reserve` (§4.1).  The chat route that
performs the reservation is elided from `src/app.py` ("the rest of the backend
routes are the same as the previous version"); only its helper
`check_and_reset_daily_limit` and `PLAN_CONFIG` are present.  Per the spec:
run the lazy daily reset first, then if `daily_message_count >= plan.daily_limit`
return `Denied("quota_exceeded")`, otherwise increment the count by 1 and
return `Allowed`. -/
def reserve (today : String) (user : User) : ReserveResult × User :=
  let u := (check_and_reset_daily_limit today user).1
  let limit := (planConfigGetD u.plan).message_limit
  if u.daily_messages ≥ limit then
    (.Denied "quota_exceeded", u)
  else
    (.Allowed, { u with daily_messages := u.daily_messages + 1 })

/-- The user state after `n` consecutive `reserve` calls on the same day. -/
def afterReserves (today : String) (u : User) : Nat → User
  | 0 => u
  | n + 1 => (reserve today (afterReserves today u n)).2

theorem reserve_date (today : String) (u : User) :
    (reserve today u).2.last_message_date = today ∧ (reserve today u).2.plan = u.plan := by
  unfold reserve check_and_reset_daily_limit
  by_cases hd : u.last_message_date = today <;> simp [hd] <;> split <;> simp [hd]

theorem afterReserves_closed_form (today : String) (u : User)
    (hd : u.last_message_date = today) (h0 : u.daily_messages = 0) :
    ∀ k, k ≤ (planConfigGetD u.plan).message_limit →
      afterReserves today u k = { u with daily_messages := k, last_message_date := today } := by
  intro k
  induction k with
  | zero =>
    intro _
    cases u
    simp_all [afterReserves]
  | succ n ih =>
    intro hle
    have hn : n ≤ (planConfigGetD u.plan).message_limit := Nat.le_of_succ_le hle
    have hlt : n < (planConfigGetD u.plan).message_limit := Nat.lt_of_succ_le hle
    have heq := ih hn
    show (reserve today (afterReserves today u n)).2 = _
    rw [heq]
    unfold reserve check_and_reset_daily_limit
    simp [Nat.not_le.mpr hlt]

/-- Claim C1: starting from a daily count of 0 on `today`, `reserve` returns
`Allowed` on each of the first `L` calls (the count rising by 1 each time,
where `L` is the plan's limit: 15 for free, 50 for pro), and the `(L+1)`-th
call returns `Denied("quota_exceeded")` and leaves the state unchanged. -/
theorem quota_reserve_daily_limit (today : String) (u : User) (L : Nat)
    (hd : u.last_message_date = today) (h0 : u.daily_messages = 0)
    (hL : (planConfigGetD u.plan).message_limit = L) :
    ((u.plan = "free" → L = 15) ∧ (u.plan = "pro" → L = 50))
    ∧ (∀ k, k < L → (reserve today (afterReserves today u k)).1 = .Allowed
          ∧ (afterReserves today u (k + 1)).daily_messages = k + 1)
    ∧ (reserve today (afterReserves today u L)).1 = .Denied "quota_exceeded"
    ∧ afterReserves today u (L + 1) = afterReserves today u L := by
  have hfree : (planConfigGetD "free").message_limit = 15 := by decide
  have hpro : (planConfigGetD "pro").message_limit = 50 := by decide
  have hcf := afterReserves_closed_form today u hd h0
  rw [hL] at hcf
  refine ⟨⟨?_, ?_⟩, ?_, ?_, ?_⟩
  · intro hp; rw [hp, hfree] at hL; exact hL.symm
  · intro hp; rw [hp, hpro] at hL; exact hL.symm
  · intro k hk
    have h1 := hcf k (Nat.le_of_lt hk)
    have h2 := hcf (k + 1) hk
    constructor
    · rw [h1]
      unfold reserve check_and_reset_daily_limit
      simp [hL, Nat.not_le.mpr hk]
    · show (reserve today (afterReserves today u k)).2.daily_messages = k + 1
      have : (reserve today (afterReserves today u k)).2 = afterReserves today u (k + 1) := rfl
      rw [this, h2]
  · rw [hcf L (le_refl L)]
    unfold reserve check_and_reset_daily_limit
    simp [hL]
  · show (reserve today (afterReserves today u L)).2 = afterReserves today u L
    rw [hcf L (le_refl L)]
    unfold reserve check_and_reset_daily_limit
    simp [hL]

/-- A free-plan user at count 0, used as a concrete witness input. -/
def uFree : User := ⟨"u1", "alice", "h", "user", "free", 0, "2026-10-12"⟩

theorem quota_reserve_daily_limit_witness :
    (reserve "2026-10-12" (afterReserves "2026-10-12" uFree 0)).1 = .Allowed
    ∧ (afterReserves "2026-10-12" uFree 1).daily_messages = 1
    ∧ (reserve "2026-10-12" (afterReserves "2026-10-12" uFree 15)).1
        = .Denied "quota_exceeded" :=
  ⟨((quota_reserve_daily_limit "2026-10-12" uFree 15 rfl rfl rfl).2.1 0 (by decide)).1,
   ((quota_reserve_daily_limit "2026-10-12" uFree 15 rfl rfl rfl).2.1 0 (by decide)).2,
   (quota_reserve_daily_limit "2026-10-12" uFree 15 rfl rfl rfl).2.2.1⟩

/-- Claim C2: the lazy daily reset.  If the stored date differs from today,
`check_and_reset_daily_limit` zeroes the count and stamps today (performing a
database write); if the stored date is today it changes nothing and writes
nothing.  `reserve` and `get_user_data_for_frontend` behave exactly as if run
on the already-reset user (the reset happens before the limit is evaluated),
and after any reserve call that day every further reset check writes nothing,
so the count is reset at most once per calendar day. -/
theorem daily_reset_lazy (today : String) (u : User) :
    (u.last_message_date ≠ today →
       check_and_reset_daily_limit today u
         = ({ u with daily_messages := 0, last_message_date := today }, true))
    ∧ (u.last_message_date = today → check_and_reset_daily_limit today u = (u, false))
    ∧ reserve today u = reserve today (check_and_reset_daily_limit today u).1
    ∧ get_user_data_for_frontend today u
        = get_user_data_for_frontend today (check_and_reset_daily_limit today u).1
    ∧ ∀ n, (check_and_reset_daily_limit today (afterReserves today u (n + 1))).2 = false := by
  refine ⟨?_, ?_, ?_, ?_, ?_⟩
  · intro h; simp [check_and_reset_daily_limit, h]
  · intro h; simp [check_and_reset_daily_limit, h]
  · by_cases hd : u.last_message_date = today
    · simp [check_and_reset_daily_limit, hd]
    · unfold reserve check_and_reset_daily_limit
      simp [hd]
  · by_cases hd : u.last_message_date = today
    · simp [check_and_reset_daily_limit, hd]
    · unfold get_user_data_for_frontend check_and_reset_daily_limit
      simp [hd]
  · intro n
    have hdate := (reserve_date today (afterReserves today u n)).1
    show (check_and_reset_daily_limit today
      (reserve today (afterReserves today u n)).2).2 = false
    simp [check_and_reset_daily_limit, hdate]

/-- A user whose stored date is stale, used as a concrete witness input. -/
def uStale : User := ⟨"u2", "bea", "h", "user", "free", 9, "2026-10-11"⟩

/-- A user whose stored date is already today, used as a concrete witness input. -/
def uFresh : User := ⟨"u3", "cal", "h", "user", "pro", 9, "2026-10-12"⟩

theorem daily_reset_lazy_witness :
    check_and_reset_daily_limit "2026-10-12" uStale
      = ({ uStale with daily_messages := 0, last_message_date := "2026-10-12" }, true)
    ∧ check_and_reset_daily_limit "2026-10-12" uFresh = (uFresh, false) :=
  ⟨(daily_reset_lazy "2026-10-12" uStale).1 (by decide),
   (daily_reset_lazy "2026-10-12" uFresh).2.1 rfl⟩

/-- States of a generation session (§4.4 of the spec):
`Starting → Streaming → {Completed, Cancelled, Failed}`. -/
inductive SessionState where
  | Starting | Streaming | Completed | Cancelled | Failed
deriving Repr, DecidableEq

/-- Modelled from the spec: the registry entry for one in-flight generation
(§3 GenerationSession).  The accumulating output buffer and the state machine
are modelled separately by `relayGo`; the registry entry carries the
cancellation flag and the release token. -/
structure GenerationSession where
  chat_id : String
  owning_user_id : String
  cancellation_flag : Bool
  token : Nat
deriving Repr, DecidableEq

/-- Modelled from the spec: the process-wide `SessionRegistry` (§4.3), a table
of active sessions plus a counter supplying fresh release tokens. -/
structure SessionRegistry where
  sessions : List GenerationSession
  nextToken : Nat
deriving Repr, DecidableEq

/-- Whether a session is currently active for `cid`. -/
def SessionRegistry.activeFor (reg : SessionRegistry) (cid : String) : Bool :=
  reg.sessions.any (fun s => s.chat_id == cid)

/-- Result of `SessionRegistry.acquire` (§4.3). -/
inductive AcquireResult where
  | Token (t : Nat)
  | Busy
deriving Repr, DecidableEq

/-- Modelled from the spec: `acquire(chat_id)` (§4.3) — atomically inserts an
entry for `chat_id` if and only if none exists, returning a unique token;
otherwise returns `Busy` and leaves the registry unchanged. -/
def SessionRegistry.acquire (reg : SessionRegistry) (cid uid : String) :
    AcquireResult × SessionRegistry :=
  if reg.activeFor cid then
    (.Busy, reg)
  else
    (.Token reg.nextToken,
     ⟨⟨cid, uid, false, reg.nextToken⟩ :: reg.sessions, reg.nextToken + 1⟩)

/-- Modelled from the spec: `release(chat_id, token)` (§4.3) — removes the
entry only if the token matches. -/
def SessionRegistry.release (reg : SessionRegistry) (cid : String) (t : Nat) :
    SessionRegistry :=
  { reg with sessions :=
      reg.sessions.filter (fun s => !(s.chat_id == cid && s.token == t)) }

/-- Raising the cancellation flag on the session for `cid`, identity on others. -/
def raiseFlag (cid : String) (s : GenerationSession) : GenerationSession :=
  if s.chat_id == cid then { s with cancellation_flag := true } else s

/-- Modelled from the spec: `cancel(chat_id)` (§4.3) — raises the cancellation
flag of the active session for that chat and returns true; returns false and
changes nothing if no session is active. -/
def SessionRegistry.cancel (reg : SessionRegistry) (cid : String) :
    Bool × SessionRegistry :=
  if reg.activeFor cid then
    (true, { reg with sessions := reg.sessions.map (raiseFlag cid) })
  else
    (false, reg)

/-- Claim C3: at most one active session per chat.  Whenever a session is
active for a chat id, any further `acquire` returns `Busy` immediately and
leaves the registry unchanged (nothing is queued); and of two consecutive
`acquire` calls for the same chat (any serialisation of two concurrent
requests), exactly the first obtains a token — the second gets `Busy`. -/
theorem session_registry_mutual_exclusion (reg : SessionRegistry)
    (cid uid uid2 : String) (h : reg.activeFor cid = false) :
    (∀ reg2 : SessionRegistry, reg2.activeFor cid = true →
        reg2.acquire cid uid2 = (.Busy, reg2))
    ∧ (reg.acquire cid uid).1 = .Token reg.nextToken
    ∧ ((reg.acquire cid uid).2.acquire cid uid2 = (.Busy, (reg.acquire cid uid).2)) := by
  have busy : ∀ reg2 : SessionRegistry, reg2.activeFor cid = true →
      reg2.acquire cid uid2 = (.Busy, reg2) := by
    intro reg2 h2
    unfold SessionRegistry.acquire
    rw [h2]
    simp
  have hact : ((reg.acquire cid uid).2).activeFor cid = true := by
    unfold SessionRegistry.acquire
    rw [h]
    simp [SessionRegistry.activeFor]
  refine ⟨busy, ?_, busy _ hact⟩
  unfold SessionRegistry.acquire
  rw [h]
  simp

theorem session_registry_mutual_exclusion_witness :
    (∀ reg2 : SessionRegistry, reg2.activeFor "chat1" = true →
        reg2.acquire "chat1" "u2" = (.Busy, reg2))
    ∧ ((⟨[], 0⟩ : SessionRegistry).acquire "chat1" "u1").1 = .Token 0
    ∧ (((⟨[], 0⟩ : SessionRegistry).acquire "chat1" "u1").2.acquire "chat1" "u2"
        = (.Busy, ((⟨[], 0⟩ : SessionRegistry).acquire "chat1" "u1").2)) := by
  have h := session_registry_mutual_exclusion (⟨[], 0⟩ : SessionRegistry)
    "chat1" "u1" "u2" (by decide)
  exact ⟨h.1, h.2.1, h.2.2⟩

/-- How the provider's lazy chunk sequence ends (§6): end-of-stream or error. -/
inductive Terminal where
  | eos
  | err (msg : String)
deriving Repr, DecidableEq

/-- Outcome of one relay run: the increments forwarded to the client in order,
the accumulation buffer, and the terminal session state. -/
structure RelayResult where
  forwarded : List String
  accumulated : String
  state : SessionState
deriving Repr, DecidableEq

/-- Concatenation of a list of text increments in order. -/
def concatAll : List String → String
  | [] => ""
  | c :: rest => c ++ concatAll rest

/-- Modelled from the spec: the `StreamRelay` loop (§4.4 `Streaming`).
`flagAt i` is the value of the session's cancellation flag at the `i`-th
between-increments check (cancellation is external and cooperative, so its
timing is an input).  Each surviving increment is appended to the
accumulation buffer and forwarded; if the flag is observed set, the session
transitions to `Cancelled` without forwarding anything further; an exhausted
provider sequence ends in `Completed` (end-of-stream) or `Failed` (error). -/
def relayGo (flagAt : Nat → Bool) (term : Terminal) :
    Nat → List String → List String → String → RelayResult
  | i, [], fwd, acc =>
    if flagAt i then ⟨fwd, acc, .Cancelled⟩
    else
      match term with
      | .eos => ⟨fwd, acc, .Completed⟩
      | .err _ => ⟨fwd, acc, .Failed⟩
  | i, c :: rest, fwd, acc =>
    if flagAt i then ⟨fwd, acc, .Cancelled⟩
    else relayGo flagAt term (i + 1) rest (fwd ++ [c]) (acc ++ c)

/-- One full relay run from the start of a stream. -/
def relayRun (flagAt : Nat → Bool) (chunks : List String) (term : Terminal) :
    RelayResult :=
  relayGo flagAt term 0 chunks [] ""

/-- A persisted chat message: `{chat_id, sender, content, truncated-tag}`;
the tag marks a partial (cancelled/failed) assistant answer (§4.4). -/
inductive Sender where
  | user
  | assistant
deriving Repr, DecidableEq

structure Message where
  chat_id : String
  sender : Sender
  content : String
  truncated : Bool
deriving Repr, DecidableEq

/-- Modelled from the spec: `ChatStore.appendTurn(chatId, userMessage,
assistantMessageOrNull)` (§6) — one atomic append of the turn: the user
message, then the assistant message when there is one. -/
def appendTurn (store : List Message) (userMsg : Message)
    (assistantMsg : Option Message) : List Message :=
  store ++ userMsg :: assistantMsg.toList

/-- Modelled from the spec: finalisation on a terminal state (§4.4).
`Completed`: the accumulated text becomes the assistant message;
`Cancelled`: the partial accumulation is persisted tagged as truncated;
`Failed`: no assistant message if zero output was produced, otherwise the
partial output tagged as truncated.  The user message is persisted in every
terminal outcome.  A non-terminal state persists nothing. -/
def finalizeTurn (store : List Message) (cid userText : String)
    (r : RelayResult) : List Message :=
  let userMsg : Message := ⟨cid, .user, userText, false⟩
  match r.state with
  | .Completed => appendTurn store userMsg (some ⟨cid, .assistant, r.accumulated, false⟩)
  | .Cancelled => appendTurn store userMsg (some ⟨cid, .assistant, r.accumulated, true⟩)
  | .Failed =>
      if r.accumulated = "" then appendTurn store userMsg none
      else appendTurn store userMsg (some ⟨cid, .assistant, r.accumulated, true⟩)
  | _ => store

theorem concatAll_append (l : List String) (s : String) :
    concatAll (l ++ [s]) = concatAll l ++ s := by
  induction l with
  | nil =>
    show s ++ concatAll [] = "" ++ s
    cases s
    simp [concatAll]
  | cons c rest ih =>
    show c ++ concatAll (rest ++ [s]) = (c ++ concatAll rest) ++ s
    rw [ih, String.append_assoc]

theorem relayGo_acc_eq_concat (flagAt : Nat → Bool) (term : Terminal) :
    ∀ (chunks : List String) (i : Nat) (fwd : List String) (acc : String),
      acc = concatAll fwd →
      (relayGo flagAt term i chunks fwd acc).accumulated
        = concatAll (relayGo flagAt term i chunks fwd acc).forwarded := by
  intro chunks
  induction chunks with
  | nil =>
    intro i fwd acc hacc
    unfold relayGo
    by_cases hf : flagAt i = true
    · simp [hf, hacc]
    · cases term <;> simp [hf, hacc]
  | cons c rest ih =>
    intro i fwd acc hacc
    unfold relayGo
    by_cases hf : flagAt i = true
    · simp [hf, hacc]
    · simp only [hf]
      simp only [Bool.false_eq_true, if_false]
      exact ih (i + 1) (fwd ++ [c]) (acc ++ c) (by rw [hacc, concatAll_append])

/-- Claim C4: in every relay run the accumulation buffer equals the
concatenation, in arrival order, of the increments forwarded to the client;
hence for a `Completed` session the persisted assistant message content is
exactly that concatenation — no increment lost, none duplicated. -/
theorem completed_turn_persists_forwarded_concat
    (flagAt : Nat → Bool) (chunks : List String) (term : Terminal)
    (store : List Message) (cid userText : String) :
    (relayRun flagAt chunks term).accumulated
      = concatAll (relayRun flagAt chunks term).forwarded
    ∧ ((relayRun flagAt chunks term).state = .Completed →
        finalizeTurn store cid userText (relayRun flagAt chunks term)
          = store ++ [⟨cid, .user, userText, false⟩,
              ⟨cid, .assistant,
                concatAll (relayRun flagAt chunks term).forwarded, false⟩]) := by
  have hacc : (relayRun flagAt chunks term).accumulated
      = concatAll (relayRun flagAt chunks term).forwarded :=
    relayGo_acc_eq_concat flagAt term chunks 0 [] "" rfl
  refine ⟨hacc, ?_⟩
  intro hc
  rcases hr : relayRun flagAt chunks term with ⟨fwd, acc, st⟩
  rw [hr] at hc hacc
  have hst : st = SessionState.Completed := hc
  have hacc2 : acc = concatAll fwd := hacc
  subst hst
  rw [show (RelayResult.mk fwd acc SessionState.Completed).forwarded = fwd from rfl]
  simp [finalizeTurn, appendTurn, hacc2]

theorem completed_turn_witness :
    (relayRun (fun _ => false) ["Hel", "lo"] .eos).accumulated
      = concatAll (relayRun (fun _ => false) ["Hel", "lo"] .eos).forwarded
    ∧ finalizeTurn [] "c1" "hi" (relayRun (fun _ => false) ["Hel", "lo"] .eos)
        = [] ++ [⟨"c1", .user, "hi", false⟩,
            ⟨"c1", .assistant,
              concatAll (relayRun (fun _ => false) ["Hel", "lo"] .eos).forwarded, false⟩] :=
  ⟨(completed_turn_persists_forwarded_concat (fun _ => false) ["Hel", "lo"] .eos
      [] "c1" "hi").1,
   (completed_turn_persists_forwarded_concat (fun _ => false) ["Hel", "lo"] .eos
      [] "c1" "hi").2 rfl⟩

/-- Claim C5: in every terminal outcome (`Completed`, `Cancelled`, `Failed`)
the user message of the turn is persisted first — immediately after the prior
store contents — followed by at most one assistant message; in particular the
user message is persisted even when zero assistant output was produced. -/
theorem user_message_persisted_first (store : List Message) (cid userText : String)
    (r : RelayResult)
    (h : r.state = .Completed ∨ r.state = .Cancelled ∨ r.state = .Failed) :
    ∃ rest : List Message,
      finalizeTurn store cid userText r
        = store ++ ⟨cid, .user, userText, false⟩ :: rest
      ∧ rest.length ≤ 1
      ∧ ∀ m ∈ rest, m.sender = .assistant ∧ m.chat_id = cid := by
  rcases r with ⟨fwd, acc, st⟩
  rcases h with h | h | h
  · have hst : st = SessionState.Completed := h
    subst hst
    refine ⟨[⟨cid, .assistant, acc, false⟩], ?_, by simp, ?_⟩
    · simp [finalizeTurn, appendTurn]
    · intro m hm
      simp at hm
      subst hm
      exact ⟨rfl, rfl⟩
  · have hst : st = SessionState.Cancelled := h
    subst hst
    refine ⟨[⟨cid, .assistant, acc, true⟩], ?_, by simp, ?_⟩
    · simp [finalizeTurn, appendTurn]
    · intro m hm
      simp at hm
      subst hm
      exact ⟨rfl, rfl⟩
  · have hst : st = SessionState.Failed := h
    subst hst
    by_cases hacc : acc = ""
    · refine ⟨[], ?_, by simp, by simp⟩
      simp [finalizeTurn, appendTurn, hacc]
    · refine ⟨[⟨cid, .assistant, acc, true⟩], ?_, by simp, ?_⟩
      · simp [finalizeTurn, appendTurn, hacc]
      · intro m hm
        simp at hm
        subst hm
        exact ⟨rfl, rfl⟩

theorem user_message_persisted_first_witness :
    ∃ rest : List Message,
      finalizeTurn [] "c2" "hello" ⟨[], "", .Failed⟩
        = [] ++ ⟨"c2", .user, "hello", false⟩ :: rest
      ∧ rest.length ≤ 1
      ∧ ∀ m ∈ rest, m.sender = .assistant ∧ m.chat_id = "c2" :=
  user_message_persisted_first [] "c2" "hello" ⟨[], "", .Failed⟩ (Or.inr (Or.inr rfl))

theorem activeFor_after_release (reg : SessionRegistry) (cid uid : String)
    (h : reg.activeFor cid = false) :
    ((reg.acquire cid uid).2.release cid reg.nextToken).activeFor cid = false := by
  have hacq : (reg.acquire cid uid).2
      = ⟨⟨cid, uid, false, reg.nextToken⟩ :: reg.sessions, reg.nextToken + 1⟩ := by
    unfold SessionRegistry.acquire
    rw [h]
    simp
  rw [hacq]
  unfold SessionRegistry.release SessionRegistry.activeFor
  simp only [List.filter_cons]
  have hhead : (!((⟨cid, uid, false, reg.nextToken⟩ : GenerationSession).chat_id == cid
      && (⟨cid, uid, false, reg.nextToken⟩ : GenerationSession).token == reg.nextToken))
      = false := by simp
  rw [hhead]
  simp only [Bool.false_eq_true, if_false]
  rw [List.any_eq_false]
  intro s hs
  have hmem := (List.mem_filter.mp hs).1
  have hall := List.any_eq_false.mp h
  exact hall s hmem

/-- Claim C8: `cancel` on a chat with no active session — including after the
session was released — returns `false` and changes nothing; `cancel` on an
active session returns `true` and raises that session's cancellation flag;
and once the relay observes the flag set it transitions to `Cancelled`
forwarding no further chunk. -/
theorem cancel_semantics (reg : SessionRegistry) (cid : String)
    (flagAt : Nat → Bool) (term : Terminal) (i : Nat)
    (chunks fwd : List String) (acc : String) :
    (reg.activeFor cid = false → reg.cancel cid = (false, reg))
    ∧ (reg.activeFor cid = true →
        (reg.cancel cid).1 = true
        ∧ ∀ s ∈ (reg.cancel cid).2.sessions,
            s.chat_id = cid → s.cancellation_flag = true)
    ∧ (∀ uid, reg.activeFor cid = false →
        ((reg.acquire cid uid).2.release cid reg.nextToken).cancel cid
          = (false, (reg.acquire cid uid).2.release cid reg.nextToken))
    ∧ (flagAt i = true →
        relayGo flagAt term i chunks fwd acc = ⟨fwd, acc, .Cancelled⟩) := by
  refine ⟨?_, ?_, ?_, ?_⟩
  · intro h
    unfold SessionRegistry.cancel
    rw [h]
    simp
  · intro h
    constructor
    · unfold SessionRegistry.cancel
      rw [h]
      simp
    · intro s hs hcid
      unfold SessionRegistry.cancel at hs
      rw [h] at hs
      simp only [if_true] at hs
      simp only [List.mem_map] at hs
      rcases hs with ⟨t, _, rfl⟩
      unfold raiseFlag at hcid ⊢
      by_cases hc : (t.chat_id == cid) = true
      · simp [hc]
      · have hcb : (t.chat_id == cid) = false := by simpa using hc
        simp only [hcb, Bool.false_eq_true, if_false] at hcid ⊢
        exact absurd hcid (beq_eq_false_iff_ne.mp hcb)
  · intro uid h
    have hrel := activeFor_after_release reg cid uid h
    unfold SessionRegistry.cancel
    rw [hrel]
    simp
  · intro hf
    cases chunks with
    | nil => simp [relayGo, hf]
    | cons c rest => simp [relayGo, hf]

theorem cancel_semantics_witness :
    ((⟨[], 5⟩ : SessionRegistry).cancel "chat2" = (false, (⟨[], 5⟩ : SessionRegistry)))
    ∧ (((⟨[⟨"chat2", "u7", false, 0⟩], 1⟩ : SessionRegistry).cancel "chat2").1 = true
        ∧ ∀ s ∈ ((⟨[⟨"chat2", "u7", false, 0⟩], 1⟩ : SessionRegistry).cancel
            "chat2").2.sessions, s.chat_id = "chat2" → s.cancellation_flag = true)
    ∧ relayGo (fun _ => true) .eos 0 ["x"] [] "" = ⟨[], "", .Cancelled⟩ := by
  have h1 := cancel_semantics (⟨[], 5⟩ : SessionRegistry) "chat2"
    (fun _ => true) .eos 0 ["x"] [] ""
  have h2 := cancel_semantics (⟨[⟨"chat2", "u7", false, 0⟩], 1⟩ : SessionRegistry)
    "chat2" (fun _ => true) .eos 0 ["x"] [] ""
  exact ⟨h1.1 (by decide), h2.2.1 (by decide), h1.2.2.2 rfl⟩

/-- Outcome of one chat-turn request at the pipeline boundary. -/
inductive RequestOutcome where
  | denied (reason : String)
  | started (model : String) (token : Nat)
deriving Repr, DecidableEq

/-- Modelled from the spec: `PlanRegistry.modelFor` (§4.2) — the requested
model must belong to the plan's allowed set, otherwise
`Denied("model_not_allowed")`; absent an explicit request the plan's first
model is used. -/
def modelFor (plan : PlanDetails) (requested : Option String) :
    Except String String :=
  match requested with
  | some m => if plan.models.contains m then .ok m else .error "model_not_allowed"
  | none =>
    match plan.models with
    | [] => .error "model_not_allowed"
    | d :: _ => .ok d

/-- Modelled from the spec: the chat-turn request pipeline (§2, §8).  Per the
§8 scenario a `model_not_allowed` denial consumes no quota unit and creates
no session, so the model check happens before the quota reservation and the
session acquisition. -/
def handleRequest (today : String) (u : User) (reg : SessionRegistry)
    (cid : String) (requested : Option String) :
    RequestOutcome × User × SessionRegistry :=
  match modelFor (planConfigGetD u.plan) requested with
  | .error r => (.denied r, u, reg)
  | .ok m =>
    match reserve today u with
    | (.Denied r, u') => (.denied r, u', reg)
    | (.Allowed, u') =>
      match reg.acquire cid u.id with
      | (.Busy, reg') => (.denied "busy", u', reg')
      | (.Token t, reg') => (.started m t, u', reg')

/-- Claim C7: a free-plan user requesting `"gemini-pro"` is denied with
`model_not_allowed` — the free plan's allowed set being exactly
`["gemini-1.5-flash-latest"]` — and the request leaves the user row (hence
the daily message count) and the session registry unchanged. -/
theorem model_not_allowed_free_plan (today : String) (u : User)
    (reg : SessionRegistry) (cid : String) (h : u.plan = "free") :
    (planConfigGetD u.plan).models = ["gemini-1.5-flash-latest"]
    ∧ handleRequest today u reg cid (some "gemini-pro")
        = (.denied "model_not_allowed", u, reg) := by
  have hm : (planConfigGetD u.plan).models = ["gemini-1.5-flash-latest"] := by
    rw [h]; decide
  refine ⟨hm, ?_⟩
  have hc : (["gemini-1.5-flash-latest"] : List String).contains "gemini-pro"
      = false := by decide
  unfold handleRequest modelFor
  rw [hm]
  simp [hc]

theorem model_not_allowed_free_plan_witness :
    (planConfigGetD uFree.plan).models = ["gemini-1.5-flash-latest"]
    ∧ handleRequest "2026-10-12" uFree (⟨[], 0⟩ : SessionRegistry) "chat9"
        (some "gemini-pro")
        = (.denied "model_not_allowed", uFree, (⟨[], 0⟩ : SessionRegistry)) :=
  model_not_allowed_free_plan "2026-10-12" uFree ⟨[], 0⟩ "chat9" rfl
